import Mathlib

/-!
# Verification of the ESLint Processor Service

A shallow embedding of `src/lib/services/processor-service.js`: the
BOM reconstructor `getBodyWithBOM`, and the `ProcessorService` methods
`preprocessSync` and `postprocessSync`, together with theorems checking
the natural-language specification against this code.

JavaScript values are modelled as follows:
* a file body (`string | Uint8Array`) is the sum type `Body`;
* `undefined`/absent fields are `Option.none`;
* byte arrays are `List Nat` (each entry a byte value);
* a value returned by `processor.preprocess` is classified by the shape
  the service actually probes: `null`/`undefined` (reading `.then` throws
  a TypeError), an object whose `then` property is callable (a thenable),
  or an array of blocks;
* an exception escaping the embedded function is `Except.error`.
-/

/-- A file body: either a JavaScript string or a `Uint8Array` of bytes. -/
inductive Body where
  | text (s : String)
  | bytes (bs : List Nat)
deriving DecidableEq, Repr

/-- The `VFile` value object (from `lib/linter/vfile.js`, outside `src/`):
logical `path`, on-disk `physicalPath`, `body`, and whether a BOM was
stripped on load. -/
structure VFile where
  path : String
  physicalPath : String
  body : Body
  bom : Bool
deriving DecidableEq, Repr

/-- Modelled from the spec: the `VFile` constructor (`lib/linter/vfile.js`,
not included under `src/`) as used at processor-service.js:114 with a
textual block body. Per spec §3, the derived VirtualFile stores the given
logical path, the block's text as its body, and the supplied
`physicalPath`; no BOM was stripped from a freshly constructed derived
file, so `bom` is `false`. -/
def VFile.new (path : String) (text : String) (physicalPath : String) : VFile :=
  { path := path, physicalPath := physicalPath, body := .text text, bom := false }

/-- Model of `node:path`'s `path.join(parent, child)` for the shapes the
service produces: a non-empty parent path and a relative child segment
`"{i}_{filename}"` containing no navigation (`.`/`..`) or separator
characters, where joining is concatenation with one separator. -/
def pathJoin (parent child : String) : String :=
  parent ++ "/" ++ child

/-- An error value thrown by a processor: its `message` string and the
nonstandard `lineNumber`/`column` fields, which may be absent
(`undefined`), hence `Option`. -/
structure JsError where
  message : String
  lineNumber : Option Nat
  column : Option Nat
deriving DecidableEq, Repr

/-- A block returned by `processor.preprocess`: either a plain string
(legacy shape) or a structured `{ text, filename }` object. -/
inductive Block where
  | str (s : String)
  | structured (text : String) (filename : String)
deriving DecidableEq, Repr

/-- The outcome of calling `processor.preprocess(bodyWithBOM, path)`,
classified by what the service code observes:
* `throws ex` — the call threw `ex` (caught at line 78);
* `nullish` — it returned `null`/`undefined`, so evaluating
  `blocks.then` at line 99 throws a TypeError;
* `thenable` — it returned a value whose `then` property is a function;
* `blocks bs` — it returned an array of blocks (an array's `then`
  property is `undefined`, which is not a function). -/
inductive PreOutcome where
  | throws (ex : JsError)
  | nullish
  | thenable
  | blocks (bs : List Block)
deriving DecidableEq, Repr

/-- A lint diagnostic record, with the fields the service writes at
lines 86–94. `null` is `none` for `ruleId`/`nodeType`; `line`/`column`
are `none` when the error did not report them (`undefined`). -/
structure LintMessage where
  ruleId : Option String
  fatal : Bool
  severity : Nat
  message : String
  line : Option Nat
  column : Option Nat
  nodeType : Option String
deriving DecidableEq, Repr

/-- A processor capability object: `preprocess(body, path)` (modelled by
its outcome on the given arguments) and the optional `postprocess`
capability. -/
structure Processor where
  preprocess : Body → String → PreOutcome
  postprocess : Option (List (List LintMessage) → String → List LintMessage)

/-- The configuration value consumed by the service: only `processor`. -/
structure Config where
  processor : Processor

/-- `getBodyWithBOM` (processor-service.js:35–53): reconstructs the body
of a file to include the BOM. -/
def getBodyWithBOM (file : VFile) : Body :=
  if !file.bom then
    file.body
  else
    match file.body with
    | .text s => .text ("\uFEFF" ++ s)
    | .bytes bs => .bytes ([0xEF, 0xBB, 0xBF] ++ bs)

/-- ECMAScript whitespace as recognised by `String.prototype.trim`:
WhiteSpace (tab, VT, FF, space, NBSP, ZWNBSP, Space_Separator) and
LineTerminator (LF, CR, LS, PS) code points. -/
def isJsWhitespace (c : Char) : Bool :=
  c == '\t' || c == '\n' || c == '\u000b' || c == '\u000c' || c == '\r' ||
  c == ' ' || c == '\u00A0' || c == '\uFEFF' || c == '\u1680' ||
  (0x2000 ≤ c.toNat && c.toNat ≤ 0x200a) ||
  c == '\u2028' || c == '\u2029' || c == '\u202F' || c == '\u205F' || c == '\u3000'

/-- `String.prototype.trim()`: remove leading and trailing JavaScript
whitespace. -/
def jsTrim (s : String) : String :=
  String.mk (((s.data.dropWhile isJsWhitespace).reverse.dropWhile isJsWhitespace).reverse)

/-- One application of the anchored regex `/^line \d+:/iu` at
processor-service.js:81: if the string starts with `line` (ASCII
case-insensitive), a space, one or more ASCII digits, and a colon,
remove that prefix; otherwise return the string unchanged. -/
def replaceLeadingLineNumber (s : String) : String :=
  match s.data with
  | l :: i :: n :: e :: ' ' :: rest =>
    if l.toLower == 'l' && i.toLower == 'i' && n.toLower == 'n' && e.toLower == 'e' then
      match rest.dropWhile Char.isDigit with
      | ':' :: tail =>
        if (rest.takeWhile Char.isDigit).length = 0 then s else String.mk tail
      | _ => s
    else s
  | _ => s

/-- The diagnostic message built at processor-service.js:81. -/
def preprocessErrorMessage (ex : JsError) : String :=
  "Preprocessing error: " ++ jsTrim (replaceLeadingLineNumber ex.message)

/-- The synthetic fatal diagnostic record built at
processor-service.js:86–94. -/
def preprocessErrorRecord (ex : JsError) : LintMessage :=
  { ruleId := none
    fatal := true
    severity := 2
    message := preprocessErrorMessage ex
    line := ex.lineNumber
    column := ex.column
    nodeType := none }

/-- An element of the `files` array produced by `preprocessSync`: a plain
string (legacy pass-through) or a derived `VFile`. -/
inductive FileEntry where
  | str (s : String)
  | vfile (f : VFile)
deriving DecidableEq, Repr

/-- The result object of `preprocessSync`: `{ ok: true, files }` or
`{ ok: false, errors }`. -/
inductive PreReturn where
  | ok (files : List FileEntry)
  | notOk (errors : List LintMessage)
deriving DecidableEq, Repr

/-- An error raised (not returned) by `preprocessSync`:
* `typeError` — reading `.then` of a `null`/`undefined` result
  (line 99);
* `promiseError msg` — the `new Error(...)` thrown at line 100. -/
inductive RunError where
  | typeError
  | promiseError (msg : String)
deriving DecidableEq, Repr

/-- `blocks.map((block, i) => ...)` at processor-service.js:105: a map
that also passes the 0-based index, starting from `start`. -/
def mapWithIndex (f : Nat → Block → FileEntry) : Nat → List Block → List FileEntry
  | _, [] => []
  | start, b :: bs => f start b :: mapWithIndex f (start + 1) bs

/-- The per-block mapping function at processor-service.js:105–117:
a plain string block maps to itself; a structured block maps to a new
`VFile` at `path.join(file.path, i + "_" + filename)` with the parent's
`physicalPath`. -/
def deriveEntry (file : VFile) (i : Nat) : Block → FileEntry
  | .str s => .str s
  | .structured text filename =>
    .vfile (VFile.new (pathJoin file.path (toString i ++ "_" ++ filename)) text
      file.physicalPath)

/-- `ProcessorService.preprocessSync` (processor-service.js:71–120).
`Except.error` models an exception escaping the method. -/
def ProcessorService.preprocessSync (file : VFile) (config : Config) :
    Except RunError PreReturn :=
  match config.processor.preprocess (getBodyWithBOM file) file.path with
  | .throws ex => .ok (.notOk [preprocessErrorRecord ex])
  | .nullish => .error .typeError
  | .thenable => .error (.promiseError "Unsupported: Preprocessor returned a promise.")
  | .blocks bs => .ok (.ok (mapWithIndex (deriveEntry file) 0 bs))

/-- The value returned by `postprocessSync`: either whatever the
processor's `postprocess` capability returned (a flat message list) or,
when the capability is absent, the still-nested input matrix unchanged.
The constructors only record which branch produced the value; the value
itself is passed through verbatim. -/
inductive PostReturn where
  | fromProcessor (ms : List LintMessage)
  | unchanged (ms : List (List LintMessage))
deriving DecidableEq, Repr

/-- `ProcessorService.postprocessSync` (processor-service.js:129–138). -/
def ProcessorService.postprocessSync (file : VFile) (messages : List (List LintMessage))
    (config : Config) : PostReturn :=
  match config.processor.postprocess with
  | some pp => .fromProcessor (pp messages file.path)
  | none => .unchanged messages

/-! ## Heap model

`Uint8Array` objects are mutable; to settle frame/freshness properties the
byte-array operations of `getBodyWithBOM` (lines 46–52) are also embedded
against an explicit heap of byte arrays, addressed by allocation order.
-/

/-- A heap of `Uint8Array` objects, addressed by allocation order. -/
structure Heap where
  arrays : List (List Nat)
deriving DecidableEq, Repr

/-- Dereference a byte-array reference (out-of-range reads never occur in
the embedded code; they default to `[]`). -/
def Heap.read (σ : Heap) (r : Nat) : List Nat :=
  σ.arrays.getD r []

/-- `new Uint8Array(n)`: allocate a fresh zero-filled array of length `n`,
returning the new heap and the reference to the array. -/
def Heap.alloc (σ : Heap) (n : Nat) : Heap × Nat :=
  ({ arrays := σ.arrays ++ [List.replicate n 0] }, σ.arrays.length)

/-- The contents change performed by `TypedArray.prototype.set(src, off)`:
overwrite `dst` from position `off` with the entries of `src`. -/
def writeRange (dst : List Nat) (off : Nat) (src : List Nat) : List Nat :=
  dst.take off ++ src ++ dst.drop (off + src.length)

/-- `arr.set(src, off)` on the array referenced by `r`: an in-place update
of that heap cell. -/
def Heap.setAt (σ : Heap) (r : Nat) (off : Nat) (src : List Nat) : Heap :=
  { arrays := σ.arrays.set r (writeRange (σ.read r) off src) }

/-- A file body in the heap model: strings are immutable values, byte
arrays are references into the heap. -/
inductive BodyH where
  | text (s : String)
  | bytesRef (r : Nat)
deriving DecidableEq, Repr

/-- A `VFile` whose byte-array body (if any) lives in the heap. -/
structure VFileH where
  path : String
  physicalPath : String
  body : BodyH
  bom : Bool
deriving DecidableEq, Repr

/-- `getBodyWithBOM` (processor-service.js:35–53) against the explicit
heap: the `bom && bytes` branch allocates a fresh `Uint8Array` and writes
the 3 BOM bytes and then the original bytes into it. -/
def getBodyWithBOMH (σ : Heap) (file : VFileH) : Heap × BodyH :=
  if !file.bom then
    (σ, file.body)
  else
    match file.body with
    | .text s => (σ, .text ("\uFEFF" ++ s))
    | .bytesRef r =>
      let src := σ.read r
      let alloc1 := σ.alloc (3 + src.length)
      let σ₂ := alloc1.1.setAt alloc1.2 0 [0xEF, 0xBB, 0xBF]
      let σ₃ := σ₂.setAt alloc1.2 3 src
      (σ₃, .bytesRef alloc1.2)

/-- Dereference a heap-model body to its value. -/
def derefBody (σ : Heap) : BodyH → Body
  | .text s => .text s
  | .bytesRef r => .bytes (σ.read r)

/-- A produced file entry in the heap model (derived bodies are textual,
so no allocation is involved). -/
inductive FileEntryH where
  | str (s : String)
  | vfile (f : VFileH)
deriving DecidableEq, Repr

/-- `preprocessSync`'s result object in the heap model. -/
inductive PreReturnH where
  | ok (files : List FileEntryH)
  | notOk (errors : List LintMessage)
deriving DecidableEq, Repr

/-- The per-block mapping of processor-service.js:105–117 in the heap
model. -/
def deriveEntryH (file : VFileH) (i : Nat) : Block → FileEntryH
  | .str s => .str s
  | .structured text filename =>
    .vfile { path := pathJoin file.path (toString i ++ "_" ++ filename)
             physicalPath := file.physicalPath
             body := .text text
             bom := false }

/-- `blocks.map((block, i) => ...)` specialised to heap-model entries. -/
def mapWithIndexH (f : Nat → Block → FileEntryH) : Nat → List Block → List FileEntryH
  | _, [] => []
  | start, b :: bs => f start b :: mapWithIndexH f (start + 1) bs

/-- `ProcessorService.preprocessSync` (processor-service.js:71–120)
against the explicit heap. The processor is external code modelled by the
outcome of its call on the dereferenced body value. -/
def ProcessorService.preprocessSyncH (σ : Heap) (file : VFileH) (config : Config) :
    Heap × Except RunError PreReturnH :=
  let p := getBodyWithBOMH σ file
  match config.processor.preprocess (derefBody p.1 p.2) file.path with
  | .throws ex => (p.1, .ok (.notOk [preprocessErrorRecord ex]))
  | .nullish => (p.1, .error .typeError)
  | .thenable => (p.1, .error (.promiseError "Unsupported: Preprocessor returned a promise."))
  | .blocks bs => (p.1, .ok (.ok (mapWithIndexH (deriveEntryH file) 0 bs)))

/-- `ProcessorService.postprocessSync` (processor-service.js:129–138)
against the explicit heap: the method performs no heap operation at all
(it only calls the capability or returns its argument). -/
def ProcessorService.postprocessSyncH (σ : Heap) (file : VFileH)
    (messages : List (List LintMessage)) (config : Config) : Heap × PostReturn :=
  (σ,
    match config.processor.postprocess with
    | some pp => .fromProcessor (pp messages file.path)
    | none => .unchanged messages)

/-! ## Helper lemmas -/

/-- Indexing into `mapWithIndex`: the entry at position `i` is the image
of the block at position `i` under `f (start + i)`. -/
theorem mapWithIndex_getElem? (f : Nat → Block → FileEntry) (bs : List Block) :
    ∀ (start i : Nat), (mapWithIndex f start bs)[i]? = bs[i]?.map (f (start + i)) := by
  induction bs with
  | nil => intro start i; simp [mapWithIndex]
  | cons b bs ih =>
    intro start i
    cases i with
    | zero => simp [mapWithIndex]
    | succ j =>
      have harith : start + 1 + j = start + (j + 1) := by omega
      simp [mapWithIndex, ih (start + 1) j, harith]

/-- Length of `mapWithIndex`. -/
theorem mapWithIndex_length (f : Nat → Block → FileEntry) (bs : List Block) :
    ∀ start : Nat, (mapWithIndex f start bs).length = bs.length := by
  induction bs with
  | nil => intro start; rfl
  | cons b bs ih => intro start; simp [mapWithIndex, ih]

/-! ## Claims -/

/-- C5: for every VirtualFile with `bom = false`, `getBodyWithBOM` returns
the file's body unchanged, whether the body is textual or a byte
sequence. -/
theorem claim5_bom_false_identity (p pp : String) (b : Body) :
    getBodyWithBOM { path := p, physicalPath := pp, body := b, bom := false } = b := rfl

/-- C6: for every VirtualFile with `bom = true`: a textual body comes back
with the single U+FEFF character prepended (dropping that character
recovers the original body), and a byte-sequence body of length `n` comes
back as a sequence of length `3 + n` whose first 3 bytes are
`0xEF 0xBB 0xBF` and whose remaining bytes equal the original body. -/
theorem claim6_bom_true_reconstruction (p pp s : String) (bs : List Nat) :
    (∃ t, getBodyWithBOM { path := p, physicalPath := pp, body := .text s, bom := true }
            = .text t
          ∧ t.data = '\uFEFF' :: s.data
          ∧ t.data.drop 1 = s.data)
    ∧ ∃ out, getBodyWithBOM { path := p, physicalPath := pp, body := .bytes bs, bom := true }
            = .bytes out
          ∧ out.length = 3 + bs.length
          ∧ out.take 3 = [0xEF, 0xBB, 0xBF]
          ∧ out.drop 3 = bs := by
  refine ⟨⟨"\uFEFF" ++ s, rfl, rfl, rfl⟩, ⟨[0xEF, 0xBB, 0xBF] ++ bs, rfl, ?_, rfl, rfl⟩⟩
  simp [getBodyWithBOM]
  omega

/-- C2: whenever the processor's `preprocess` throws, `preprocessSync`
returns `{ ok: false, errors: [record] }` with exactly one record whose
`ruleId` is null, `fatal` is true, `severity` is 2, `nodeType` is null,
and whose `line`/`column` are copied from the thrown error's reported
fields (absent when the error did not report them); no files are
produced. -/
theorem claim2_throw_single_diagnostic (file : VFile) (config : Config) (ex : JsError)
    (h : config.processor.preprocess (getBodyWithBOM file) file.path = .throws ex) :
    ∃ msg, ProcessorService.preprocessSync file config
      = .ok (.notOk [{ ruleId := none, fatal := true, severity := 2, message := msg,
                       line := ex.lineNumber, column := ex.column, nodeType := none }]) := by
  refine ⟨preprocessErrorMessage ex, ?_⟩
  simp [ProcessorService.preprocessSync, h, preprocessErrorRecord]

/-- The concrete file used by several witnesses below. -/
def sampleFile : VFile :=
  { path := "/a/foo.md", physicalPath := "/a/foo.md", body := .text "x", bom := false }

/-- A concrete throwing error used by the C2 witness. -/
def boomError : JsError :=
  { message := "boom", lineNumber := some 3, column := some 7 }

/-- A concrete configuration whose processor throws `boomError`. -/
def throwingConfig : Config :=
  { processor := { preprocess := fun _ _ => .throws boomError, postprocess := none } }

/-- Witness for C2 at a concrete file and throwing processor. -/
theorem claim2_witness :
    throwingConfig.processor.preprocess (getBodyWithBOM sampleFile) sampleFile.path
        = .throws boomError
    ∧ ∃ msg, ProcessorService.preprocessSync sampleFile throwingConfig
        = .ok (.notOk [{ ruleId := none, fatal := true, severity := 2, message := msg,
                         line := some 3, column := some 7, nodeType := none }]) :=
  ⟨rfl, claim2_throw_single_diagnostic sampleFile throwingConfig boomError rfl⟩

/-- C4: whenever the processor's `preprocess` returns (without throwing) a
thenable value, `preprocessSync` raises an error — modelled by
`Except.error` with the message thrown at line 100 — and returns no result
object at all. -/
theorem claim4_thenable_aborts (file : VFile) (config : Config)
    (h : config.processor.preprocess (getBodyWithBOM file) file.path = .thenable) :
    ProcessorService.preprocessSync file config
        = .error (.promiseError "Unsupported: Preprocessor returned a promise.")
    ∧ ∀ r : PreReturn, ProcessorService.preprocessSync file config ≠ .ok r := by
  constructor
  · simp [ProcessorService.preprocessSync, h]
  · intro r
    simp [ProcessorService.preprocessSync, h]

/-- A concrete configuration whose processor returns a thenable. -/
def thenableConfig : Config :=
  { processor := { preprocess := fun _ _ => .thenable, postprocess := none } }

/-- Witness for C4 at a concrete file and thenable-returning processor. -/
theorem claim4_witness :
    thenableConfig.processor.preprocess (getBodyWithBOM sampleFile) sampleFile.path
        = .thenable
    ∧ (ProcessorService.preprocessSync sampleFile thenableConfig
          = .error (.promiseError "Unsupported: Preprocessor returned a promise.")
        ∧ ∀ r : PreReturn,
            ProcessorService.preprocessSync sampleFile thenableConfig ≠ .ok r) :=
  ⟨rfl, claim4_thenable_aborts sampleFile thenableConfig rfl⟩

/-- C10: the diagnostic-degradation path covers only thrown errors, not
malformed return values: when the processor's `preprocess` returns
`null`/`undefined` without throwing, `preprocessSync` raises a TypeError
while probing `blocks.then` (line 99) — modelled by `Except.error` — so it
returns neither `{ ok: true, ... }` nor `{ ok: false, ... }` and produces
no synthetic diagnostic. -/
theorem claim10_nullish_type_error (file : VFile) (config : Config)
    (h : config.processor.preprocess (getBodyWithBOM file) file.path = .nullish) :
    ProcessorService.preprocessSync file config = .error .typeError
    ∧ ∀ r : PreReturn, ProcessorService.preprocessSync file config ≠ .ok r := by
  constructor
  · simp [ProcessorService.preprocessSync, h]
  · intro r
    simp [ProcessorService.preprocessSync, h]

/-- A concrete configuration whose processor returns `undefined`. -/
def nullishConfig : Config :=
  { processor := { preprocess := fun _ _ => .nullish, postprocess := none } }

/-- Witness for C10 at a concrete file and nullish-returning processor. -/
theorem claim10_witness :
    nullishConfig.processor.preprocess (getBodyWithBOM sampleFile) sampleFile.path
        = .nullish
    ∧ (ProcessorService.preprocessSync sampleFile nullishConfig = .error .typeError
        ∧ ∀ r : PreReturn,
            ProcessorService.preprocessSync sampleFile nullishConfig ≠ .ok r) :=
  ⟨rfl, claim10_nullish_type_error sampleFile nullishConfig rfl⟩

/-- C8: if the configuration's processor exposes a `postprocess`
capability, `postprocessSync` returns exactly what the capability returns
on `(messages, file.path)`; otherwise it returns `messages` unchanged,
still in nested per-block shape. -/
theorem claim8_postprocess_delegation (file : VFile)
    (messages : List (List LintMessage)) (config : Config) :
    (∀ pp, config.processor.postprocess = some pp →
        ProcessorService.postprocessSync file messages config
          = .fromProcessor (pp messages file.path))
    ∧ (config.processor.postprocess = none →
        ProcessorService.postprocessSync file messages config = .unchanged messages) := by
  constructor
  · intro pp hpp
    simp [ProcessorService.postprocessSync, hpp]
  · intro hnone
    simp [ProcessorService.postprocessSync, hnone]

/-- A concrete `postprocess` capability: flatten and keep one record. -/
def flattenCapability : List (List LintMessage) → String → List LintMessage :=
  fun ms _ => ms.flatten

/-- A concrete configuration with a `postprocess` capability. -/
def withPostConfig : Config :=
  { processor := { preprocess := fun _ _ => .blocks [], postprocess := some flattenCapability } }

/-- A concrete nested message matrix. -/
def sampleMessages : List (List LintMessage) :=
  [[{ ruleId := some "semi", fatal := false, severity := 1, message := "m",
      line := some 1, column := some 2, nodeType := none }], []]

/-- Witness for C8 at concrete configurations with and without the
capability. -/
theorem claim8_witness :
    (withPostConfig.processor.postprocess = some flattenCapability
      ∧ ProcessorService.postprocessSync sampleFile sampleMessages withPostConfig
          = .fromProcessor (flattenCapability sampleMessages sampleFile.path))
    ∧ (nullishConfig.processor.postprocess = none
      ∧ ProcessorService.postprocessSync sampleFile sampleMessages nullishConfig
          = .unchanged sampleMessages) :=
  ⟨⟨rfl, (claim8_postprocess_delegation sampleFile sampleMessages withPostConfig).1
      flattenCapability rfl⟩,
   ⟨rfl, (claim8_postprocess_delegation sampleFile sampleMessages nullishConfig).2 rfl⟩⟩

/-- C1: every structured block `{text, filename}` at 0-based position `i`
of the processor's result becomes a derived file whose `path` is
`file.path + "/" + i + "_" + filename`, whose `physicalPath` is the
parent's `physicalPath` (never the derived path), and whose body is the
block's text. -/
theorem claim1_derived_file_shape (file : VFile) (config : Config) (bs : List Block)
    (hcall : config.processor.preprocess (getBodyWithBOM file) file.path = .blocks bs)
    (i : Nat) (text filename : String)
    (hblock : bs[i]? = some (.structured text filename)) :
    ∃ fs, ProcessorService.preprocessSync file config = .ok (.ok fs)
      ∧ fs[i]? = some (.vfile
          { path := file.path ++ "/" ++ toString i ++ "_" ++ filename
            physicalPath := file.physicalPath
            body := .text text
            bom := false }) := by
  refine ⟨mapWithIndex (deriveEntry file) 0 bs, ?_, ?_⟩
  · simp [ProcessorService.preprocessSync, hcall]
  · rw [mapWithIndex_getElem?, hblock]
    simp [deriveEntry, VFile.new, pathJoin, String.append_assoc]

/-- The two structured blocks of the spec's C1 example. -/
def twoBlocks : List Block :=
  [.structured "a" "x.js", .structured "b" "y.js"]

/-- A concrete configuration returning `twoBlocks`. -/
def twoBlockConfig : Config :=
  { processor := { preprocess := fun _ _ => .blocks twoBlocks, postprocess := none } }

/-- Witness for C1: the spec's example file at `"/a/foo.md"` with the two
structured blocks, checked at position 1. -/
theorem claim1_witness :
    (twoBlockConfig.processor.preprocess (getBodyWithBOM sampleFile) sampleFile.path
        = .blocks twoBlocks
      ∧ twoBlocks[1]? = some (.structured "b" "y.js"))
    ∧ ∃ fs, ProcessorService.preprocessSync sampleFile twoBlockConfig = .ok (.ok fs)
        ∧ fs[1]? = some (.vfile
            { path := sampleFile.path ++ "/" ++ toString 1 ++ "_" ++ "y.js"
              physicalPath := sampleFile.physicalPath
              body := .text "b"
              bom := false }) :=
  ⟨⟨rfl, rfl⟩,
   claim1_derived_file_shape sampleFile twoBlockConfig twoBlocks rfl 1 "b" "y.js" rfl⟩

/-- C7: for every non-thenable block array, `preprocessSync` returns
`{ ok: true, files }` with one file entry per block in the same order —
entry `i` derives from block `i` — and plain string blocks pass through
unchanged at the same position. -/
theorem claim7_order_and_passthrough (file : VFile) (config : Config) (bs : List Block)
    (hcall : config.processor.preprocess (getBodyWithBOM file) file.path = .blocks bs) :
    ∃ fs, ProcessorService.preprocessSync file config = .ok (.ok fs)
      ∧ fs.length = bs.length
      ∧ (∀ (i : Nat) (b : Block), bs[i]? = some b → fs[i]? = some (deriveEntry file i b))
      ∧ (∀ (i : Nat) (s : String), bs[i]? = some (.str s) → fs[i]? = some (.str s)) := by
  refine ⟨mapWithIndex (deriveEntry file) 0 bs, ?_, mapWithIndex_length _ _ _, ?_, ?_⟩
  · simp [ProcessorService.preprocessSync, hcall]
  · intro i b hb
    rw [mapWithIndex_getElem?, hb]
    simp
  · intro i s hs
    rw [mapWithIndex_getElem?, hs]
    simp [deriveEntry]

/-- A concrete configuration returning the single legacy string block of
the spec's pass-through example. -/
def plainTextConfig : Config :=
  { processor := { preprocess := fun _ _ => .blocks [.str "plain text"], postprocess := none } }

/-- Witness for C7: the `["plain text"]` example passes through unchanged,
and the general theorem applies to it. -/
theorem claim7_witness :
    plainTextConfig.processor.preprocess (getBodyWithBOM sampleFile) sampleFile.path
        = .blocks [.str "plain text"]
    ∧ ProcessorService.preprocessSync sampleFile plainTextConfig
        = .ok (.ok [.str "plain text"])
    ∧ ∃ fs, ProcessorService.preprocessSync sampleFile plainTextConfig = .ok (.ok fs)
        ∧ fs.length = [Block.str "plain text"].length
        ∧ (∀ (i : Nat) (b : Block), [Block.str "plain text"][i]? = some b →
            fs[i]? = some (deriveEntry sampleFile i b))
        ∧ (∀ (i : Nat) (s : String), [Block.str "plain text"][i]? = some (.str s) →
            fs[i]? = some (.str s)) :=
  ⟨rfl, rfl,
   claim7_order_and_passthrough sampleFile plainTextConfig [.str "plain text"] rfl⟩

/-- Scanning an all-digit run: `dropWhile isDigit` stops exactly at the
colon and `takeWhile isDigit` takes exactly the run. -/
theorem digits_scan (tail : List Char) :
    ∀ ds : List Char, (∀ c ∈ ds, c.isDigit) →
      (ds ++ ':' :: tail).dropWhile Char.isDigit = ':' :: tail
      ∧ (ds ++ ':' :: tail).takeWhile Char.isDigit = ds := by
  intro ds
  induction ds with
  | nil =>
    intro _
    constructor
    · simp [List.dropWhile]
    · simp [List.takeWhile]
  | cons d ds ih =>
    intro h
    have hd : d.isDigit = true := h d (by simp)
    have hrest : ∀ c ∈ ds, c.isDigit = true := fun c hc => h c (by simp [hc])
    constructor
    · simp [List.dropWhile, hd, (ih hrest).1]
    · simp [List.takeWhile, hd, (ih hrest).2]

/-- C3: the diagnostic message for a thrown preprocessing error is
`"Preprocessing error: "` followed by the error's message with any
leading `line <digits>:` pattern (ASCII case-insensitive) removed and
surrounding whitespace trimmed; in particular `"line 4: bad token"`
yields `"Preprocessing error: bad token"`. -/
theorem claim3_message_stripping :
    (∀ (file : VFile) (config : Config) (ex : JsError),
        config.processor.preprocess (getBodyWithBOM file) file.path = .throws ex →
        ∃ errs, ProcessorService.preprocessSync file config = .ok (.notOk errs)
          ∧ errs.map LintMessage.message
              = ["Preprocessing error: " ++ jsTrim (replaceLeadingLineNumber ex.message)])
    ∧ (∀ (c₁ c₂ c₃ c₄ : Char) (ds tail : List Char),
        c₁.toLower = 'l' → c₂.toLower = 'i' → c₃.toLower = 'n' → c₄.toLower = 'e' →
        ds ≠ [] → (∀ c ∈ ds, c.isDigit) →
        replaceLeadingLineNumber
            (String.mk (c₁ :: c₂ :: c₃ :: c₄ :: ' ' :: (ds ++ ':' :: tail)))
          = String.mk tail)
    ∧ preprocessErrorMessage { message := "line 4: bad token", lineNumber := none, column := none }
        = "Preprocessing error: bad token" := by
  refine ⟨?_, ?_, by decide⟩
  · intro file config ex h
    refine ⟨[preprocessErrorRecord ex], ?_, ?_⟩
    · simp [ProcessorService.preprocessSync, h]
    · simp [preprocessErrorRecord, preprocessErrorMessage]
  · intro c₁ c₂ c₃ c₄ ds tail h₁ h₂ h₃ h₄ hne hdigits
    have hscan := digits_scan tail ds hdigits
    simp [replaceLeadingLineNumber, h₁, h₂, h₃, h₄, hscan.1, hscan.2, hne]

/-- The spec's example error whose message carries a line-number
prefix. -/
def lineError : JsError :=
  { message := "line 4: bad token", lineNumber := none, column := none }

/-- A concrete configuration whose processor throws `lineError`. -/
def lineErrorConfig : Config :=
  { processor := { preprocess := fun _ _ => .throws lineError, postprocess := none } }

/-- Witness for C3: the `"line 4: bad token"` example evaluates to the
spec's expected diagnostic message. -/
theorem claim3_witness :
    lineErrorConfig.processor.preprocess (getBodyWithBOM sampleFile) sampleFile.path
        = .throws lineError
    ∧ (∃ errs, ProcessorService.preprocessSync sampleFile lineErrorConfig
          = .ok (.notOk errs)
        ∧ errs.map LintMessage.message
            = ["Preprocessing error: " ++ jsTrim (replaceLeadingLineNumber lineError.message)])
    ∧ "Preprocessing error: " ++ jsTrim (replaceLeadingLineNumber lineError.message)
        = "Preprocessing error: bad token" :=
  ⟨rfl, claim3_message_stripping.1 sampleFile lineErrorConfig lineError rfl, by decide⟩

/-- The two `set` calls of lines 49–50 on a fresh zero-filled array of
length `3 + n` produce exactly the BOM bytes followed by the source
bytes. -/
theorem writeRange_bom (src : List Nat) :
    writeRange (writeRange (List.replicate (3 + src.length) 0) 0 [0xEF, 0xBB, 0xBF]) 3 src
      = [0xEF, 0xBB, 0xBF] ++ src := by
  have hsplit : List.replicate (3 + src.length) (0 : Nat)
      = [0, 0, 0] ++ List.replicate src.length 0 :=
    (List.append_replicate_replicate).symm
  have hdrop3 : ([0, 0, 0] ++ List.replicate src.length (0 : Nat)).drop 3
      = List.replicate src.length 0 := List.drop_left' rfl
  have htake3 : (([0xEF, 0xBB, 0xBF] : List Nat) ++ List.replicate src.length 0).take 3
      = [0xEF, 0xBB, 0xBF] := List.take_left' rfl
  have hlen : (3 : Nat) + src.length
      = ([0xEF, 0xBB, 0xBF] : List Nat).length + src.length := rfl
  simp only [writeRange, hsplit, List.take_zero, List.nil_append, Nat.zero_add,
    hdrop3, htake3, hlen, List.drop_append, List.drop_replicate]
  simp

/-- Frame property of `getBodyWithBOMH`: every array already allocated
before the call is untouched. -/
theorem getBodyWithBOMH_frame (σ : Heap) (f : VFileH) (r : Nat)
    (h : r < σ.arrays.length) :
    ((getBodyWithBOMH σ f).1).arrays[r]? = σ.arrays[r]? := by
  cases hbom : f.bom with
  | false => simp [getBodyWithBOMH, hbom]
  | true =>
    cases hbody : f.body with
    | text s => simp [getBodyWithBOMH, hbom, hbody]
    | bytesRef rr =>
      have hne : σ.arrays.length ≠ r := by omega
      simp [getBodyWithBOMH, hbom, hbody, Heap.alloc, Heap.setAt, Heap.read,
        List.getElem?_set_ne hne, List.getElem?_append_left h]

/-- Freshness of the BOM-prefixed array: in the `bom = true` byte case the
returned body is a reference to the newly allocated array, whose contents
are the BOM bytes followed by the original bytes. -/
theorem getBodyWithBOMH_fresh (σ : Heap) (f : VFileH) (r : Nat)
    (hbom : f.bom = true) (hbody : f.body = .bytesRef r) :
    (getBodyWithBOMH σ f).2 = .bytesRef σ.arrays.length
    ∧ (getBodyWithBOMH σ f).1.read σ.arrays.length
        = [0xEF, 0xBB, 0xBF] ++ σ.read r := by
  have hlenA : (σ.arrays ++ [List.replicate (3 + (σ.read r).length) 0]).length
      = σ.arrays.length + 1 := by simp
  have hgetA : (σ.arrays ++ [List.replicate (3 + (σ.read r).length) 0])[σ.arrays.length]?
      = some (List.replicate (3 + (σ.read r).length) 0) :=
    List.getElem?_concat_length _ _
  constructor
  · simp [getBodyWithBOMH, hbom, hbody, Heap.alloc]
  · simp only [getBodyWithBOMH, hbom, hbody, Heap.alloc, Heap.setAt, Heap.read,
      Bool.not_true, Bool.false_eq_true, if_false]
    simp only [List.getD_eq_getElem?_getD, hgetA, Option.getD_some]
    rw [List.getElem?_set_self (by simp [List.length_set, hlenA])]
    rw [List.getElem?_set_self (by simp [hlenA])]
    simp [writeRange_bom]

/-- `preprocessSyncH` performs no heap operation beyond the one inside
`getBodyWithBOMH`. -/
theorem preprocessSyncH_heap (σ : Heap) (f : VFileH) (c : Config) :
    (ProcessorService.preprocessSyncH σ f c).1 = (getBodyWithBOMH σ f).1 := by
  simp only [ProcessorService.preprocessSyncH]
  cases c.processor.preprocess
      (derefBody (getBodyWithBOMH σ f).1 (getBodyWithBOMH σ f).2) f.path <;> rfl

/-- Reading an untouched cell yields the same bytes. -/
theorem read_congr (σ σ₂ : Heap) (r : Nat) (h : σ₂.arrays[r]? = σ.arrays[r]?) :
    σ₂.read r = σ.read r := by
  simp [Heap.read, List.getD_eq_getElem?_getD, h]

/-- C9: none of the service operations mutates its inputs. Against the
explicit heap of byte arrays: `getBodyWithBOMH` leaves every
pre-existing array (in particular the input file's body and anything
reachable from `messages`/`config`) unchanged; in the `bom = true`
byte-sequence case the BOM-prefixed body is a freshly allocated array —
a reference distinct from the input body's — holding the BOM bytes
followed by the unchanged original bytes; `preprocessSyncH` preserves
every pre-existing array as well; and `postprocessSyncH` returns the
heap untouched. The `VFile` fields themselves are never written: both
services are functions of their arguments in this embedding because the
source assigns to no field of `file`, `messages` or `config`. -/
theorem claim9_no_input_mutation :
    (∀ (σ : Heap) (f : VFileH) (r : Nat), r < σ.arrays.length →
        ((getBodyWithBOMH σ f).1).arrays[r]? = σ.arrays[r]?)
    ∧ (∀ (σ : Heap) (f : VFileH) (r : Nat), f.bom = true → f.body = .bytesRef r →
        r < σ.arrays.length →
        ∃ r1, (getBodyWithBOMH σ f).2 = .bytesRef r1 ∧ r1 ≠ r
          ∧ (getBodyWithBOMH σ f).1.read r1 = [0xEF, 0xBB, 0xBF] ++ σ.read r
          ∧ (getBodyWithBOMH σ f).1.read r = σ.read r)
    ∧ (∀ (σ : Heap) (f : VFileH) (c : Config) (r : Nat), r < σ.arrays.length →
        ((ProcessorService.preprocessSyncH σ f c).1).arrays[r]? = σ.arrays[r]?)
    ∧ (∀ (σ : Heap) (f : VFileH) (ms : List (List LintMessage)) (c : Config),
        (ProcessorService.postprocessSyncH σ f ms c).1 = σ) := by
  refine ⟨getBodyWithBOMH_frame, ?_, ?_, ?_⟩
  · intro σ f r hbom hbody h
    obtain ⟨h1, h2⟩ := getBodyWithBOMH_fresh σ f r hbom hbody
    exact ⟨σ.arrays.length, h1, by omega, h2,
      read_congr σ _ r (getBodyWithBOMH_frame σ f r h)⟩
  · intro σ f c r h
    rw [preprocessSyncH_heap]
    exact getBodyWithBOMH_frame σ f r h
  · intro σ f ms c
    rfl

/-- A concrete heap holding one two-byte array. -/
def byteHeap : Heap := { arrays := [[1, 2]] }

/-- A concrete byte-bodied file (with BOM stripped on load) whose body
refers to the array in `byteHeap`. -/
def byteFile : VFileH :=
  { path := "/a/foo.md", physicalPath := "/a/foo.md", body := .bytesRef 0, bom := true }

/-- Witness for C9 at a concrete heap, byte-bodied file, configuration
and message matrix. -/
theorem claim9_witness :
    (0 < byteHeap.arrays.length ∧ byteFile.bom = true ∧ byteFile.body = .bytesRef 0)
    ∧ ((getBodyWithBOMH byteHeap byteFile).1.arrays[0]? = byteHeap.arrays[0]?)
    ∧ (∃ r1, (getBodyWithBOMH byteHeap byteFile).2 = .bytesRef r1 ∧ r1 ≠ 0
        ∧ (getBodyWithBOMH byteHeap byteFile).1.read r1
            = [0xEF, 0xBB, 0xBF] ++ byteHeap.read 0
        ∧ (getBodyWithBOMH byteHeap byteFile).1.read 0 = byteHeap.read 0)
    ∧ ((ProcessorService.preprocessSyncH byteHeap byteFile plainTextConfig).1.arrays[0]?
        = byteHeap.arrays[0]?)
    ∧ (ProcessorService.postprocessSyncH byteHeap byteFile sampleMessages
        plainTextConfig).1 = byteHeap :=
  ⟨⟨by decide, rfl, rfl⟩,
   claim9_no_input_mutation.1 byteHeap byteFile 0 (by decide),
   claim9_no_input_mutation.2.1 byteHeap byteFile 0 rfl rfl (by decide),
   claim9_no_input_mutation.2.2.1 byteHeap byteFile plainTextConfig 0 (by decide),
   claim9_no_input_mutation.2.2.2 byteHeap byteFile sampleMessages plainTextConfig⟩
